import Mathlib

/-!
Verification development for the `mlpost` cross-posting tool (`publish.py`).
Strings are modelled as `List Char`; Python dicts as association lists with
update-or-append assignment; the git/HTTP/interactive layers as explicit
parameters (`Env`).  All definitions are translated from `src/publish.py`.
-/

namespace MLPost

abbrev Str := List Char

def strL (s : String) : Str := s.toList

/-- Enum `Blog` from publish.py (devto, medium, hashnode). -/
inductive Blog
  | devto
  | medium
  | hashnode
deriving DecidableEq

/-- `class BlogStatus(BaseModel): post_id: Optional[str]`. -/
structure BlogStatus where
  post_id : Option Str
deriving DecidableEq

/-- `class PostSetting(BaseModel)`: the post's metadata record. -/
structure PostSetting where
  title : Str
  slug : Option Str
  draft : Bool
  main_image : Option Str
  description : Option Str
  tags : Option (List Str)
  canonical_url : Option Str
  devto_series : Option Str
deriving DecidableEq

abbrev Post := Str
abbrev PostStatus := List (Blog × BlogStatus)
abbrev Status := List (Post × PostStatus)

/-- Python dict lookup `d.get(k)`: first binding of the key, if any. -/
def dget [DecidableEq α] : List (α × β) → α → Option β
  | [], _ => none
  | (k, v) :: rest, k' => if k = k' then some v else dget rest k'

/-- Python dict assignment `d[k] = v`: replace the binding in place, or append. -/
def dset [DecidableEq α] : List (α × β) → α → β → List (α × β)
  | [], k, v => [(k, v)]
  | (k', v') :: rest, k, v =>
      if k' = k then (k, v) :: rest else (k', v') :: dset rest k v

/-- Python `s.rpartition(sep)`: split at the LAST occurrence of `sep`,
returning (head, separator, tail); when `sep` does not occur the result is
(empty, empty, s). -/
def rpartition (sep : Char) : Str → Str × Str × Str
  | [] => ([], [], [])
  | c :: cs =>
    match rpartition sep cs with
    | (_, [], _) => if c = sep then ([], [sep], cs) else ([], [], c :: cs)
    | (a, s, b) => (c :: a, s, b)

def jsonExtChars : Str := ['j', 's', 'o', 'n']

def mdExtChars : Str := ['m', 'd']

/-- `get_post(post_or_setting)` = `post_or_setting.rpartition(".")[0]`. -/
def get_post (post_or_setting : Str) : Post :=
  (rpartition '.' post_or_setting).1

/-- `get_setting(post)` = `f"{post}.json"`. -/
def get_setting (post : Post) : Str := post ++ ('.' :: jsonExtChars)

/-- `get_content(post)` = `f"{post}.md"`. -/
def get_content (post : Post) : Str := post ++ ('.' :: mdExtChars)

def blogDirChars : Str := strL "blog-posts/"

/-- `all_modified_posts()`: the distinct posts whose `.md`/`.json` files under
`blog-posts/` appear in the git name-only diff between LAST and CUR commit.
The diff line list is the `files` parameter; Python's `set(...)` is `dedup`. -/
def all_modified_posts (files : List Str) : List Post :=
  ((files.filter fun p =>
      blogDirChars.isPrefixOf p &&
        (('.' :: mdExtChars).isSuffixOf p || ('.' :: jsonExtChars).isSuffixOf p)).map
    get_post).dedup

/-- JSON-like payload values appearing in the adapters' outgoing payloads.
`canonicalObj url` models Hashnode's nested `{"originalArticleURL": url}`. -/
inductive JVal
  | str (v : Str)
  | bool (v : Bool)
  | arr (v : List Str)
  | null
  | canonicalObj (url : Str)
deriving DecidableEq

def JVal.isNull : JVal → Bool
  | .null => true
  | _ => false

/-- Python `None if a is None else a` appearing in Hashnode.make_posted
(`else_none`): the identity on optional values. -/
def else_none (a : Option α) : Option α :=
  match a with
  | none => none
  | some x => some x

/-- An optional value rendered as JSON: `None` becomes `null`. -/
def optStrVal (o : Option Str) : JVal :=
  match o with
  | some v => .str v
  | none => .null

/-- `if x is not None: payload[k] = v(x)` — one conditionally present field. -/
def optField (k : Str) : Option JVal → List (Str × JVal)
  | some v => [(k, v)]
  | none => []

def kContent : Str := strL "content"
def kContentFormat : Str := strL "contentFormat"
def kTitle : Str := strL "title"
def kPublishStatus : Str := strL "publishStatus"
def kTags : Str := strL "tags"
def kCanonicalUrlCamel : Str := strL "canonicalUrl"
def kBodyMarkdown : Str := strL "body_markdown"
def kPublished : Str := strL "published"
def kMainImage : Str := strL "main_image"
def kCanonicalUrlSnake : Str := strL "canonical_url"
def kDescription : Str := strL "description"
def kSeries : Str := strL "series"
def kSlug : Str := strL "slug"
def kContentMarkdown : Str := strL "contentMarkdown"
def kCoverImage : Str := strL "coverImage"
def kIsRepublished : Str := strL "isRepublished"

/-- `Medium.build_payload`.  `title` and `draft` are required fields, so their
`is not None` guards are always true.  NOTE (faithful to the source): the last
field is guarded by `main_image` but carries `canonical_url`'s value, which is
`null` when `canonical_url` is unset. -/
def medium_build_payload (post_content : Str) (s : PostSetting) : List (Str × JVal) :=
  [(kContent, .str post_content), (kContentFormat, .str (strL "markdown")),
   (kTitle, .str s.title),
   (kPublishStatus, .str (if s.draft then strL "draft" else strL "public"))]
  ++ optField kTags (s.tags.map JVal.arr)
  ++ optField kCanonicalUrlCamel (s.main_image.map fun _ => optStrVal s.canonical_url)

/-- `Devto.build_payload`: the inner `payload["article"]` dict (the outgoing
payload is `{"article": thisdict}`). -/
def devto_build_payload (post_content : Str) (s : PostSetting) : List (Str × JVal) :=
  [(kBodyMarkdown, .str post_content), (kTitle, .str s.title),
   (kPublished, .bool (!s.draft))]
  ++ optField kTags (s.tags.map JVal.arr)
  ++ optField kMainImage (s.main_image.map JVal.str)
  ++ optField kCanonicalUrlSnake (s.canonical_url.map JVal.str)
  ++ optField kDescription (s.description.map JVal.str)
  ++ optField kSeries (s.devto_series.map JVal.str)

/-- The `"input"` dict of Hashnode's createPublicationStory mutation as first
built (before `drop_none`).  `tags` is hardcoded to the empty list in the
source ("don't know how to build tag..."). -/
def hashnode_input_raw (post_content : Str) (s : PostSetting) : List (Str × JVal) :=
  [(kTitle, optStrVal (else_none (some s.title))),
   (kSlug, optStrVal (else_none s.slug)),
   (kContentMarkdown, .str post_content),
   (kTags, .arr []),
   (kCoverImage, optStrVal (else_none s.main_image)),
   (kIsRepublished,
     match s.canonical_url with
     | none => .null
     | some u => .canonicalObj u)]

/-- `drop_none` applied to one dict level: entries whose value is `None` are
removed.  (The source also recurses into nested dicts; the only nested dict
here, `isRepublished`'s object, never contains a `None` value.) -/
def drop_none (d : List (Str × JVal)) : List (Str × JVal) :=
  d.filter fun kv => !kv.2.isNull

/-- The Hashnode `"input"` dict as actually sent, after `drop_none`. -/
def hashnode_input (post_content : Str) (s : PostSetting) : List (Str × JVal) :=
  drop_none (hashnode_input_raw post_content s)

/-- Operator's effective answer to the `[M]anual/[D]elete-then-create` prompt
(after the inner confirmation loops resolve). -/
inductive EscChoice
  | manual
  | deleteRecreate
deriving DecidableEq

/-- The external world: file contents, HTTP outcomes, operator answers, git
working-tree cleanliness.  Each field abstracts one external collaborator of
publish.py. -/
structure Env where
  setting : Post → PostSetting
  content : Post → Str
  httpOk : Blog → Post → Bool
  newId : Blog → Post → Str
  devtoUpdateOk : Post → Bool
  medChoice : Post → EscChoice
  hashChoice : Post → EscChoice
  fileExists : Str → Bool
  dirty : Bool

/-- One observable platform interaction: `invokeCreate`/`invokeUpdate` record
`make_posted`/`update_post` method invocations; `createApi`/`updateApi` record
the underlying HTTP requests. -/
inductive Call
  | createApi (b : Blog) (p : Post)
  | updateApi (b : Blog) (p : Post) (id : Str)
  | invokeCreate (b : Blog) (p : Post)
  | invokeUpdate (b : Blog) (p : Post) (id : Str)
deriving DecidableEq

inductive Err
  | httpError (b : Blog) (p : Post)
  | fileNotFound (path : Str)
  | dirtyTree
deriving DecidableEq

/-- `Devto.make_posted`: POST to the articles endpoint; non-201 raises. -/
def devto_make_posted (env : Env) (p : Post) : List Call × Except Err (Option Str) :=
  ([Call.createApi .devto p],
   if env.httpOk .devto p then .ok (some (env.newId .devto p))
   else .error (.httpError .devto p))

/-- `Medium.make_posted`: POST to the users/posts endpoint; non-201 raises. -/
def medium_make_posted (env : Env) (p : Post) : List Call × Except Err (Option Str) :=
  ([Call.createApi .medium p],
   if env.httpOk .medium p then .ok (some (env.newId .medium p))
   else .error (.httpError .medium p))

/-- `Hashnode.make_posted`: a draft post is skipped (returns `None`, no HTTP
call); otherwise POST the GraphQL mutation; non-200 raises. -/
def hashnode_make_posted (env : Env) (p : Post) : List Call × Except Err (Option Str) :=
  if (env.setting p).draft then ([], .ok none)
  else
    ([Call.createApi .hashnode p],
     if env.httpOk .hashnode p then .ok (some (env.newId .hashnode p))
     else .error (.httpError .hashnode p))

/-- `Devto.update_post`: PUT to the article; non-200 raises; returns the id. -/
def devto_update_post (env : Env) (p : Post) (pid : Str) : List Call × Except Err (Option Str) :=
  ([Call.updateApi .devto p pid],
   if env.devtoUpdateOk p then .ok (some pid) else .error (.httpError .devto p))

/-- `Medium.update_post`: interactive escalation.  `[M]anual` is a bare
`return` (i.e. `None`); `[D]elete-then-create` re-runs `make_posted`. -/
def medium_update_post (env : Env) (p : Post) (_pid : Str) : List Call × Except Err (Option Str) :=
  match env.medChoice p with
  | .manual => ([], .ok none)
  | .deleteRecreate => medium_make_posted env p

/-- `Hashnode.update_post`: a draft post returns the existing id unchanged;
otherwise interactive escalation as for Medium (`[M]anual` returns `None`). -/
def hashnode_update_post (env : Env) (p : Post) (pid : Str) : List Call × Except Err (Option Str) :=
  if (env.setting p).draft then ([], .ok (some pid))
  else
    match env.hashChoice p with
    | .manual => ([], .ok none)
    | .deleteRecreate => hashnode_make_posted env p

/-- Dynamic dispatch `blog_api.make_posted(post)` over `API_MAP`. -/
def make_posted (env : Env) : Blog → Post → List Call × Except Err (Option Str)
  | .devto => devto_make_posted env
  | .medium => medium_make_posted env
  | .hashnode => hashnode_make_posted env

/-- Dynamic dispatch `blog_api.update_post(post, post_id)` over `API_MAP`. -/
def update_post (env : Env) : Blog → Post → Str → List Call × Except Err (Option Str)
  | .devto => devto_update_post env
  | .medium => medium_update_post env
  | .hashnode => hashnode_update_post env

/-- `API_MAP` iteration order (Python dict insertion order). -/
def allBlogs : List Blog := [.devto, .medium, .hashnode]

/-- `get_post_status(base, current=True)`: look the post up in the Status read
from `CUR_COMMIT:status.yml` (the `cur` parameter), defaulting to an empty
`PostStatus()`. -/
def get_post_status (cur : Status) (p : Post) : PostStatus :=
  (dget cur p).getD []

/-- `update_post_status(post, post_status)`: `status = get_status()` re-reads
the Status from `CUR_COMMIT:status.yml` (NOT from the working file), sets
`status[post]`, and `write_status` writes the result to disk.  The returned
value is the new on-disk `status.yml` content. -/
def update_post_status (cur : Status) (post : Post) (post_status : PostStatus) : Status :=
  dset cur post post_status

/-- The outcome of (part of) a run: the platform interactions performed, the
on-disk `status.yml` content when control returns, and the uncaught exception
if one was raised. -/
structure RunRes where
  calls : List Call
  disk : Status
  err : Option Err
deriving DecidableEq

/-- `commit_post(post, blog_api)`: read the post's status from the current
commit, ensure the blog key exists, create when the stored id is absent or
update when present, then persist via `update_post_status`.  An HTTP error
propagates without persisting. -/
def commit_post (env : Env) (cur : Status) (b : Blog) (p : Post) (disk : Status) : RunRes :=
  let ps0 := get_post_status cur p
  let ps1 := if dget ps0 b = none then dset ps0 b { post_id := none } else ps0
  let bs := (dget ps1 b).getD { post_id := none }
  match bs.post_id with
  | none =>
    match make_posted env b p with
    | (calls, .ok newId) =>
        { calls := Call.invokeCreate b p :: calls
          disk := update_post_status cur p (dset ps1 b { post_id := newId })
          err := none }
    | (calls, .error e) =>
        { calls := Call.invokeCreate b p :: calls, disk := disk, err := some e }
  | some pid =>
    match update_post env b p pid with
    | (calls, .ok newId) =>
        { calls := Call.invokeUpdate b p pid :: calls
          disk := update_post_status cur p (dset ps1 b { post_id := newId })
          err := none }
    | (calls, .error e) =>
        { calls := Call.invokeUpdate b p pid :: calls, disk := disk, err := some e }

/-- The first existence check in `commit_all`: for each modified post, raise
`FileNotFoundError` on its content path, then on its setting path, if missing. -/
def checkExists (env : Env) : List Post → Option Str
  | [] => none
  | p :: rest =>
    if env.fileExists (get_content p) = false then some (get_content p)
    else if env.fileExists (get_setting p) = false then some (get_setting p)
    else checkExists env rest

/-- The second loop of `commit_all`: posts outer, `API_MAP` blogs inner, one
`commit_post` per pair, an exception aborting the remainder. -/
def run_pairs (env : Env) (cur : Status) : List (Post × Blog) → Status → RunRes
  | [], disk => { calls := [], disk := disk, err := none }
  | (p, b) :: rest, disk =>
    let r := commit_post env cur b p disk
    match r.err with
    | some e => { calls := r.calls, disk := r.disk, err := some e }
    | none =>
      let r' := run_pairs env cur rest r.disk
      { calls := r.calls ++ r'.calls, disk := r'.disk, err := r'.err }

/-- `commit_all()` up to (but not including) the final auto-commit: assert a
clean working tree, fail fast on missing content/setting files, then process
every (post, blog) pair.  `disk0` is the on-disk `status.yml` at start (equal
to `cur` when the tree is clean). -/
def commit_all (env : Env) (changed : List Str) (cur : Status) (disk0 : Status) : RunRes :=
  if env.dirty then { calls := [], disk := disk0, err := some .dirtyTree }
  else
    match checkExists env (all_modified_posts changed) with
    | some q => { calls := [], disk := disk0, err := some (.fileNotFound q) }
    | none =>
      run_pairs env cur
        ((all_modified_posts changed).flatMap fun p => allBlogs.map fun b => (p, b))
        disk0

/-- The repository state a run starts from: the name-only diff between the two
head commits, and `status.yml` as of the current commit. -/
structure World where
  changed : List Str
  committed : Status
deriving DecidableEq

/-- One whole invocation of the script including `commit_all`'s trailing
auto-commit: when the run succeeds and `status.yml` changed, it is committed
(so the next run's diff is exactly `status.yml`); otherwise nothing is
committed and the next run sees the same two revisions. -/
def full_run (env : Env) (w : World) : RunRes × World :=
  let r := commit_all env w.changed w.committed w.committed
  if r.err = none ∧ r.disk ≠ w.committed then
    (r, { changed := [strL "status.yml"], committed := r.disk })
  else (r, w)

/-! Concrete run scenarios used to evaluate the model on explicit inputs. -/

/-- A setting file with `draft: true` and every optional field unset. -/
def settingDraft : PostSetting :=
  { title := strL "t", slug := none, draft := true, main_image := none,
    description := none, tags := none, canonical_url := none, devto_series := none }

/-- The same setting with `draft: false`. -/
def settingPublic : PostSetting := { settingDraft with draft := false }

/-- A setting whose only present optional field is `main_image`. -/
def settingImgOnly : PostSetting := { settingPublic with main_image := some (strL "img") }

def postA : Post := strL "blog-posts/a"

def changedA : List Str := [strL "blog-posts/a.md"]

/-- Environment: non-draft post, devto/medium HTTP calls succeed, hashnode's
fails, operator answers `[M]anual` to any escalation prompt, all files exist,
clean tree. -/
def envRun : Env :=
  { setting := fun _ => settingPublic, content := fun _ => [],
    httpOk := fun b _ => b ≠ Blog.hashnode,
    newId := fun b _ =>
      match b with
      | .devto => strL "d1"
      | .medium => strL "m1"
      | .hashnode => strL "h1",
    devtoUpdateOk := fun _ => true,
    medChoice := fun _ => .manual, hashChoice := fun _ => .manual,
    fileExists := fun _ => true, dirty := false }

/-- Environment: draft post, every HTTP call succeeds. -/
def envIdem : Env := { envRun with setting := fun _ => settingDraft, httpOk := fun _ _ => true }

/-- Environment in which no file exists on disk. -/
def envMissing : Env := { envRun with fileExists := fun _ => false }

/-- Committed status for the idempotence scenario: `postA` has a hashnode id
but no devto or medium entry. -/
def worldIdem : World :=
  { changed := changedA,
    committed := [(postA, [(Blog.hashnode, { post_id := some (strL "h") })])] }

/-- Committed status in which `postA` has medium id "123". -/
def statusMed123 : Status :=
  [(postA, [(Blog.medium, { post_id := some (strL "123") })])]

end MLPost

/-! Helper lemmas about the dictionary, path and list operations. -/

namespace MLPost

theorem dget_dset_self [DecidableEq α] (m : List (α × β)) (k : α) (v : β) :
    dget (dset m k v) k = some v := by
  induction m with
  | nil => simp [dget, dset]
  | cons kv rest ih =>
    obtain ⟨k', v'⟩ := kv
    by_cases h : k' = k
    · subst h; simp [dget, dset]
    · simp [dget, dset, h, ih]

theorem rpartition_of_not_mem {sep : Char} {l : Str} (h : sep ∉ l) :
    rpartition sep l = ([], [], l) := by
  induction l with
  | nil => rfl
  | cons c cs ih =>
    have hc : c ≠ sep := fun hc => h (hc ▸ List.mem_cons_self c cs)
    have hcs : sep ∉ cs := fun hm => h (List.mem_cons_of_mem c hm)
    simp [rpartition, ih hcs, hc]

theorem rpartition_append_sep {sep : Char} (p : Str) {ext : Str} (h : sep ∉ ext) :
    rpartition sep (p ++ sep :: ext) = (p, [sep], ext) := by
  induction p with
  | nil => simp [rpartition, rpartition_of_not_mem h]
  | cons c cs ih => simp [rpartition, ih]

theorem isPrefixOf_append_right {l p : Str} (q : Str) (h : l.isPrefixOf p = true) :
    l.isPrefixOf (p ++ q) = true := by
  induction l generalizing p with
  | nil => simp [List.isPrefixOf]
  | cons a l' ih =>
    cases p with
    | nil => simp [List.isPrefixOf] at h
    | cons b p' =>
      simp only [List.isPrefixOf, List.cons_append, Bool.and_eq_true] at h ⊢
      exact ⟨h.1, ih h.2⟩

theorem isPrefixOf_self (l : Str) : l.isPrefixOf l = true := by
  induction l with
  | nil => rfl
  | cons a l' ih => simp [List.isPrefixOf, ih]

theorem isSuffixOf_append_self (l p : Str) : l.isSuffixOf (p ++ l) = true := by
  simp only [List.isSuffixOf, List.reverse_append]
  exact isPrefixOf_append_right _ (isPrefixOf_self l.reverse)

theorem checkExists_of_missing (env : Env) {l : List Post} {p : Post}
    (hp : p ∈ l)
    (hmiss : env.fileExists (get_content p) = false ∨
             env.fileExists (get_setting p) = false) :
    ∃ q, checkExists env l = some q ∧ env.fileExists q = false ∧
      ∃ pp, pp ∈ l ∧ (q = get_content pp ∨ q = get_setting pp) := by
  induction l with
  | nil => cases hp
  | cons a rest ih =>
    by_cases hca : env.fileExists (get_content a) = false
    · exact ⟨get_content a, by simp [checkExists, hca], hca,
        a, List.mem_cons_self a rest, Or.inl rfl⟩
    · by_cases hsa : env.fileExists (get_setting a) = false
      · exact ⟨get_setting a, by simp [checkExists, hca, hsa], hsa,
          a, List.mem_cons_self a rest, Or.inr rfl⟩
      · rcases List.mem_cons.1 hp with hpa | hprest
        · subst hpa
          rcases hmiss with hm | hm
          · exact absurd hm hca
          · exact absurd hm hsa
        · obtain ⟨q, hq1, hq2, pp, hpp, hpq⟩ := ih hprest
          exact ⟨q, by simp [checkExists, hca, hsa, hq1], hq2,
            pp, List.mem_cons_of_mem a hpp, hpq⟩

theorem get_post_append {ext : Str} (p : Str) (h : '.' ∉ ext) :
    get_post (p ++ '.' :: ext) = p := by
  unfold get_post
  rw [rpartition_append_sep p h]

theorem commit_post_disk_of_ok (env : Env) (cur : Status) (b : Blog) (p : Post)
    (disk : Status) (h : (commit_post env cur b p disk).err = none) :
    ∃ ps1 v, (commit_post env cur b p disk).disk =
      dset cur p (dset ps1 b { post_id := v }) := by
  by_cases hb : dget (get_post_status cur p) b = none
  · rcases h1 : make_posted env b p with ⟨cc, rc⟩
    cases rc with
    | ok v =>
      exact ⟨dset (get_post_status cur p) b { post_id := none }, v,
        by simp [commit_post, hb, dget_dset_self, h1, update_post_status]⟩
    | error e => simp [commit_post, hb, dget_dset_self, h1] at h
  · rcases hsome : dget (get_post_status cur p) b with _ | bs
    · exact absurd hsome hb
    rcases bs with ⟨_ | pid⟩
    · rcases h1 : make_posted env b p with ⟨cc, rc⟩
      cases rc with
      | ok v =>
        exact ⟨get_post_status cur p, v,
          by simp [commit_post, hsome, h1, update_post_status]⟩
      | error e => simp [commit_post, hsome, h1] at h
    · rcases h1 : update_post env b p pid with ⟨cc, rc⟩
      cases rc with
      | ok v =>
        exact ⟨get_post_status cur p, v,
          by simp [commit_post, hsome, h1, update_post_status]⟩
      | error e => simp [commit_post, hsome, h1] at h

theorem count_one_of_nodup_mem {α : Type _} [BEq α] [LawfulBEq α] {a : α} {l : List α}
    (d : l.Nodup) (h : a ∈ l) : List.count a l = 1 := by
  induction l with
  | nil => cases h
  | cons x xs ih =>
    rcases List.mem_cons.1 h with rfl | hmem
    · have hx : a ∉ xs := (List.nodup_cons.1 d).1
      simp [List.count_cons, List.count_eq_zero.2 hx]
    · have hx : x ∉ xs := (List.nodup_cons.1 d).1
      have hne : ¬x = a := fun he => hx (he.symm ▸ hmem)
      simp [List.count_cons, hne, ih (List.nodup_cons.1 d).2 hmem]

end MLPost

/-! The claims. -/

namespace MLPost

/-- C9: deriving the post key from a post's generated content path or setting
path returns the post key: `get_post (get_content p) = p` and
`get_post (get_setting p) = p`, so both files map to the same identifier. -/
theorem C9_roundtrip (p : Post) :
    get_post (get_setting p) = p ∧ get_post (get_content p) = p :=
  ⟨get_post_append p (by decide), get_post_append p (by decide)⟩

/-- C8: when both a post's content file and its setting file changed between
two revisions, the Change Detector (`all_modified_posts`) yields that post
exactly once. -/
theorem C8_dedup (files : List Str) (p : Post)
    (hpre : blogDirChars.isPrefixOf p = true)
    (hc : get_content p ∈ files) (_hs : get_setting p ∈ files) :
    List.count p (all_modified_posts files) = 1 := by
  apply count_one_of_nodup_mem (List.nodup_dedup _)
  rw [List.mem_dedup]
  refine List.mem_map.2 ⟨get_content p, List.mem_filter.2 ⟨hc, ?_⟩, get_post_append p (by decide)⟩
  rw [Bool.and_eq_true, Bool.or_eq_true]
  exact ⟨isPrefixOf_append_right _ hpre,
    Or.inl (isSuffixOf_append_self ('.' :: mdExtChars) p)⟩

/-- C8 witness: a concrete diff containing both the content and the setting
file of `blog-posts/a` yields that post exactly once. -/
theorem C8_dedup_witness :
    List.count postA (all_modified_posts [strL "blog-posts/a.md", strL "blog-posts/a.json"]) = 1 :=
  C8_dedup _ postA (by decide) (by decide) (by decide)

/-- C6: `commit_post` invokes the adapter's create operation when the stored
`PlatformStatus` has no identifier (including a present key with an absent
identifier), and its update operation with the stored identifier otherwise. -/
theorem C6_dispatch (env : Env) (cur : Status) (b : Blog) (p : Post) (disk : Status) :
    ((dget (get_post_status cur p) b = none ∨
        dget (get_post_status cur p) b = some { post_id := none }) →
      (commit_post env cur b p disk).calls
        = Call.invokeCreate b p :: (make_posted env b p).1) ∧
    (∀ pid, dget (get_post_status cur p) b = some { post_id := some pid } →
      (commit_post env cur b p disk).calls
        = Call.invokeUpdate b p pid :: (update_post env b p pid).1) := by
  constructor
  · intro h
    rcases hmk : make_posted env b p with ⟨cc, rc⟩
    rcases h with h | h
    · cases rc <;> simp [commit_post, h, dget_dset_self, hmk]
    · cases rc <;> simp [commit_post, h, hmk]
  · intro pid h
    rcases hup : update_post env b p pid with ⟨cc, rc⟩
    cases rc <;> simp [commit_post, h, hup]

/-- C6 witness: with no stored identifier the devto create is invoked; with
stored identifier "123" the medium update is invoked with "123". -/
theorem C6_dispatch_witness :
    (commit_post envRun [] .devto postA []).calls
      = Call.invokeCreate .devto postA :: (make_posted envRun .devto postA).1 ∧
    (commit_post envRun statusMed123 .medium postA statusMed123).calls
      = Call.invokeUpdate .medium postA (strL "123")
          :: (update_post envRun .medium postA (strL "123")).1 :=
  ⟨(C6_dispatch envRun [] .devto postA []).1 (Or.inl rfl),
   (C6_dispatch envRun statusMed123 .medium postA statusMed123).2 (strL "123") (by decide)⟩

/-- C7: when some changed post's content or setting file is missing, the run
aborts with `FileNotFoundError` naming a missing path and performs no platform
API call for any post. -/
theorem C7_fail_fast (env : Env) (changed : List Str) (cur disk0 : Status) (p : Post)
    (hdirty : env.dirty = false)
    (hp : p ∈ all_modified_posts changed)
    (hmiss : env.fileExists (get_content p) = false ∨
             env.fileExists (get_setting p) = false) :
    (commit_all env changed cur disk0).calls = [] ∧
    ∃ q, (commit_all env changed cur disk0).err = some (.fileNotFound q) ∧
      env.fileExists q = false ∧
      ∃ pp, pp ∈ all_modified_posts changed ∧
        (q = get_content pp ∨ q = get_setting pp) := by
  obtain ⟨q, hq1, hq2, pp, hpp, hpq⟩ := checkExists_of_missing env hp hmiss
  exact ⟨by simp [commit_all, hdirty, hq1],
    q, by simp [commit_all, hdirty, hq1], hq2, pp, hpp, hpq⟩

/-- C7 witness: with no file on disk, the concrete run aborts naming a missing
path and makes no call. -/
theorem C7_fail_fast_witness :
    (commit_all envMissing changedA [] []).calls = [] ∧
    ∃ q, (commit_all envMissing changedA [] []).err = some (.fileNotFound q) ∧
      envMissing.fileExists q = false ∧
      ∃ pp, pp ∈ all_modified_posts changedA ∧
        (q = get_content pp ∨ q = get_setting pp) :=
  C7_fail_fast envMissing changedA [] [] postA rfl (by decide) (Or.inl rfl)

/-- C10: whenever a (post, platform) pair completes without an HTTP error, the
persisted post status contains a key for that platform, whose `post_id` may be
absent (the adapter may have declined, e.g. Hashnode skipping a draft). -/
theorem C10_key_recorded (env : Env) (cur : Status) (b : Blog) (p : Post) (disk : Status)
    (h : (commit_post env cur b p disk).err = none) :
    ∃ ps v, dget (commit_post env cur b p disk).disk p = some ps ∧
      dget ps b = some { post_id := v } := by
  obtain ⟨ps1, v, hd⟩ := commit_post_disk_of_ok env cur b p disk h
  exact ⟨dset ps1 b { post_id := v }, v, by rw [hd]; exact dget_dset_self _ _ _,
    dget_dset_self _ _ _⟩

/-- C10 witness: Hashnode declines a draft create (no identifier returned),
yet the persisted status records the hashnode key with `post_id` absent. -/
theorem C10_key_recorded_witness :
    (∃ ps v, dget (commit_post envIdem [] .hashnode postA []).disk postA = some ps ∧
        dget ps .hashnode = some { post_id := v }) ∧
    dget ((dget (commit_post envIdem [] .hashnode postA []).disk postA).getD [])
        Blog.hashnode = some { post_id := none } :=
  ⟨C10_key_recorded envIdem [] .hashnode postA [] (by decide), by decide⟩

/-- C1: evaluation of the failing run.  The post is created on devto (id
"d1"), then on medium (id "m1"), then hashnode's call fails.  The claim says
the on-disk Status records every earlier successful pair, but the on-disk
Status after the abort holds only medium's identifier: devto's entry is gone,
because each `update_post_status` rebuilds the file from `CUR_COMMIT`'s
status, discarding the earlier in-run write. -/
theorem C1_abort_loses_earlier_pair :
    (commit_all envRun changedA [] []).err = some (.httpError .hashnode postA) ∧
    Call.createApi .devto postA ∈ (commit_all envRun changedA [] []).calls ∧
    (commit_all envRun changedA [] []).disk
      = [(postA, [(Blog.medium, { post_id := some (strL "m1") })])] ∧
    dget ((dget (commit_all envRun changedA [] []).disk postA).getD []) Blog.devto
      = none := by
  decide

/-- C2: evaluation at the failing input.  `postA` has stored medium id "123";
the operator answers `[M]anual`.  The claim says the identifier is left
unchanged, but `Medium.update_post` returns `None` and `commit_post` persists
`post_id: None`: the stored identifier is cleared. -/
theorem C2_manual_clears_id :
    (commit_post envRun statusMed123 .medium postA statusMed123).err = none ∧
    (commit_post envRun statusMed123 .medium postA statusMed123).calls
      = [Call.invokeUpdate .medium postA (strL "123")] ∧
    dget ((dget (commit_post envRun statusMed123 .medium postA statusMed123).disk
        postA).getD []) Blog.medium = some { post_id := none } := by
  decide

/-- C3: evaluation at the failing input.  After the devto pair is persisted,
the on-disk Status holds the entry (postA, devto); the very next save (the
medium pair of the same run) rewrites the file from the commit's status and
the (postA, devto) entry disappears — the save deletes an entry. -/
theorem C3_save_deletes_entry :
    dget ((dget (commit_post envRun [] .devto postA []).disk postA).getD []) Blog.devto
      = some { post_id := some (strL "d1") } ∧
    (commit_post envRun [] .medium postA (commit_post envRun [] .devto postA []).disk).err
      = none ∧
    dget ((dget (commit_post envRun [] .medium postA
        (commit_post envRun [] .devto postA []).disk).disk postA).getD []) Blog.devto
      = none := by
  decide

/-- C4: evaluation at the failing input.  `postA` has a committed hashnode id
but no devto entry; all posts are drafts.  The first run creates the post on
devto, but the id is lost when the hashnode pair's save rebuilds the file from
the commit, so `status.yml` ends unchanged and nothing is committed.  The
second run — with no intervening content change — performs a devto create call
again, contradicting "zero create calls". -/
theorem C4_second_run_creates :
    (full_run envIdem worldIdem).1.err = none ∧
    (full_run envIdem worldIdem).2 = worldIdem ∧
    Call.createApi .devto postA ∈ (full_run envIdem (full_run envIdem worldIdem).2).1.calls := by
  decide

/-- C5 counterexample: a setting with `tags` absent nevertheless produces a
Hashnode payload whose `input` dict contains a `tags` field (the empty list),
because the source hardcodes `"tags": []`. -/
theorem C5_tags_present_counterexample :
    settingPublic.tags = none ∧
    (kTags, JVal.arr []) ∈ hashnode_input (strL "c") settingPublic := by
  decide

set_option synthInstance.maxSize 2000 in
/-- C5 amended: Devto omits every unset optional field; Medium omits unset
`tags` and, when `main_image` is unset, sends no `canonicalUrl`; Hashnode
omits unset `slug`, `coverImage` and `isRepublished`.  The two exceptions the
code forces: Hashnode always sends `tags: []` whatever the setting, and
Medium, whenever `main_image` is set, sends a `canonicalUrl` field carrying
`canonical_url`'s value — `null` when that field is unset. -/
theorem C5_field_omission (post_content : Str) (s : PostSetting) :
    (s.tags = none →
        kTags ∉ (medium_build_payload post_content s).map Prod.fst ∧
        kTags ∉ (devto_build_payload post_content s).map Prod.fst) ∧
    (s.slug = none → kSlug ∉ (hashnode_input post_content s).map Prod.fst) ∧
    (s.main_image = none →
        kCanonicalUrlCamel ∉ (medium_build_payload post_content s).map Prod.fst ∧
        kMainImage ∉ (devto_build_payload post_content s).map Prod.fst ∧
        kCoverImage ∉ (hashnode_input post_content s).map Prod.fst) ∧
    (s.canonical_url = none →
        kCanonicalUrlSnake ∉ (devto_build_payload post_content s).map Prod.fst ∧
        kIsRepublished ∉ (hashnode_input post_content s).map Prod.fst) ∧
    (s.description = none → kDescription ∉ (devto_build_payload post_content s).map Prod.fst) ∧
    (s.devto_series = none → kSeries ∉ (devto_build_payload post_content s).map Prod.fst) ∧
    (kTags, JVal.arr []) ∈ hashnode_input post_content s ∧
    (∀ img, s.main_image = some img →
        (kCanonicalUrlCamel, optStrVal s.canonical_url) ∈ medium_build_payload post_content s) := by
  obtain ⟨t, sl, dr, mi, de, tg, cu, ds⟩ := s
  cases sl <;> cases mi <;> cases de <;> cases tg <;> cases cu <;> cases ds <;>
    simp [medium_build_payload, devto_build_payload, hashnode_input,
      hashnode_input_raw, drop_none, optField, optStrVal, else_none, JVal.isNull] <;>
    decide

/-- C5 witness: at a concrete setting with every optional field unset, the
tags key is absent from the Medium and Devto payloads; at a concrete setting
with only `main_image` set, Medium sends `canonicalUrl: null`. -/
theorem C5_field_omission_witness :
    (kTags ∉ (medium_build_payload (strL "c") settingPublic).map Prod.fst ∧
     kTags ∉ (devto_build_payload (strL "c") settingPublic).map Prod.fst) ∧
    (kCanonicalUrlCamel, optStrVal settingImgOnly.canonical_url)
      ∈ medium_build_payload (strL "c") settingImgOnly :=
  ⟨(C5_field_omission (strL "c") settingPublic).1 rfl,
   (C5_field_omission (strL "c") settingImgOnly).2.2.2.2.2.2.2 (strL "img") rfl⟩

end MLPost
